import Mathlib

/-!
Shallow embedding of the pykit repository's wager-analytics engine and
conversation store, with theorems settling the frozen claims.

Sources embedded:
- `src/parleyapp_tools.py` — `BettingAnalysisTool.analyze_value`,
  `_get_historical_rate`, `_calculate_confidence`
- `src/pp_tools.py` — `BettingAnalysisTool._calculate_confidence` (5-level variant)
- `src/pp_server.py` — `_american_to_decimal`, the parlay odds derivation in
  `build_parlay`
- `src/parleyapp_widgets.py` — module-level `_american_to_decimal`
- `src/chatkit_supabase_store.py` — `SupabaseStore.load_thread`,
  `load_thread_items`, `load_threads`
- `src/simple_app.py` — `MemoryStore.load_thread`

Numbers are embedded as `ℚ`.  Where a claim's truth depends on float
rounding — the parlay odds round trip — the binary64 round-to-nearest,
ties-to-even semantics of Python floats is modelled explicitly over `ℚ`
(`fl` below), reproducing the program's doubles bit-for-bit; for the other
claims the values involved are short decimal literals whose threshold
comparisons and clamp bounds agree between exact rationals and binary64.
Fallible code paths (uncaught Python exceptions) are embedded as
`Option`/`Except`.
-/

namespace PyKit

/-! Section: Odds inputs and Python-style parsing helpers -/

/-- A bet's `odds` field, which in the source is either an `int` or a `str`. -/
inductive OddsIn where
  | int (n : ℤ)
  | str (s : String)
deriving DecidableEq, Repr

/-- Embeds `s.replace("+", "").replace("-", "")`: drop every `+` and `-` character. -/
def removeSigns (s : String) : String :=
  ⟨s.data.filter (fun c => !(c == '+' || c == '-'))⟩

/-- Embeds `s.replace("+", "")`: drop every `+` character. -/
def removePlus (s : String) : String :=
  ⟨s.data.filter (fun c => !(c == '+'))⟩

/-- Python `int(s)` on an unsigned string: succeeds iff `s` is a nonempty
digit string (the source only ever feeds it digit strings or garbage). -/
def parseDigits (s : String) : Option ℕ :=
  if !s.data.isEmpty && s.data.all (fun c => c.isDigit) then
    some (s.data.foldl (fun n c => 10 * n + (c.toNat - 48)) 0)
  else
    none

/-- Python `int(s)` allowing one leading `-` sign. -/
def parseSigned (s : String) : Option ℤ :=
  match s.data with
  | '-' :: rest => (parseDigits ⟨rest⟩).map (fun m => -(m : ℤ))
  | _ => (parseDigits s).map (fun m => (m : ℤ))

/-- Python `s.startswith("-")`. -/
def startsWithDash (s : String) : Bool :=
  match s.data with
  | '-' :: _ => true
  | _ => false

/-- Python `s.lower()` (ASCII case folding suffices for the source's inputs). -/
def lowerStr (s : String) : String := ⟨s.data.map Char.toLower⟩

/-- List-of-chars prefix test (Python `needle == hay[:len(needle)]`). -/
def isPrefixOfL : List Char → List Char → Bool
  | [], _ => true
  | _ :: _, [] => false
  | a :: as, b :: bs => a == b && isPrefixOfL as bs

/-- List-of-chars infix test: Python `needle in hay` for strings. -/
def isInfixL (n : List Char) : List Char → Bool
  | [] => n.isEmpty
  | h :: hs => isPrefixOfL n (h :: hs) || isInfixL n hs

/-- Python `needle in hay` on strings. -/
def strContains (hay needle : String) : Bool := isInfixL needle.data hay.data

/-- Lexicographic strict order on char lists by codepoint, used to model the
database's text comparison (`created_at > after` in PostgREST); agrees with
codepoint lexicographic order on the ASCII data involved. -/
def charListLt : List Char → List Char → Bool
  | [], [] => false
  | [], _ :: _ => true
  | _ :: _, [] => false
  | a :: as, b :: bs =>
    if a.toNat < b.toNat then true
    else if a.toNat == b.toNat then charListLt as bs
    else false

/-- Lexicographic strict order on strings by codepoint. -/
def strLt (a b : String) : Bool := charListLt a.data b.data

/-! Section: Odds math (`parleyapp_tools.analyze_value`, `pp_server`, `parleyapp_widgets`) -/

/-- Odds normalisation at the top of `BettingAnalysisTool.analyze_value`
(`src/parleyapp_tools.py:214-221`): a string has all `+`/`-` stripped, is
parsed with `int(...)`, and is negated when the original started with `-`;
any parse failure falls back to `-110` via the bare `except`. -/
def normalize_odds : OddsIn → ℤ
  | .int n => n
  | .str s =>
    match parseDigits (removeSigns s) with
    | none => -110
    | some m => if startsWithDash s then -(m : ℤ) else (m : ℤ)

/-- Implied probability from American odds
(`src/parleyapp_tools.py:223-226`): `100/(o+100)` for positive `o`, else
`|o|/(|o|+100)`.  Note `o = 0` yields `0`, not an error, on this path. -/
def implied_prob (o : ℤ) : ℚ :=
  if o > 0 then 100 / ((o : ℚ) + 100)
  else (o.natAbs : ℚ) / ((o.natAbs : ℚ) + 100)

/-- Rounding of a rational to the nearest integer with ties to even: the
rounding rule of IEEE-754 binary64 (Python `float`) arithmetic. -/
def rte (q : ℚ) : ℤ :=
  let n := ⌊q⌋
  if q - n < 1/2 then n
  else if 1/2 < q - n then n + 1
  else if n % 2 = 0 then n else n + 1

/-- Binary64 rounding of a rational: round the significand to 53 bits with
ties to even.  This is the exact value-level semantics of every IEEE-754
double in the normal range (overflow and subnormals do not arise for the
odds values here), so composing `fl` after each arithmetic operation models
Python float arithmetic bit-for-bit. -/
def fl (q : ℚ) : ℚ :=
  if q = 0 then 0
  else (rte (q * 2 ^ ((52:ℤ) - Int.log 2 |q|)) : ℚ) / 2 ^ ((52:ℤ) - Int.log 2 |q|)

/-- Embeds `ProfessorLockChatKitServer._american_to_decimal`
(`src/pp_server.py:298-303`) under Python float semantics: the division and
the addition each round to binary64.  `odds = 0` falls into the negative
branch and raises `ZeroDivisionError` in Python, embedded as `none`. -/
def pp_american_to_decimal_fp (o : ℤ) : Option ℚ :=
  if o > 0 then some (fl (fl ((o : ℚ) / 100) + 1))
  else if o = 0 then none
  else some (fl (fl (100 / (o.natAbs : ℚ)) + 1))

/-- Module-level `_american_to_decimal` in `src/parleyapp_widgets.py:372-383`:
strings have `+` stripped and are parsed with `int(...)` (keeping a leading
`-`); any exception — including the `ZeroDivisionError` raised by odds `0` —
is swallowed by the bare `except` and replaced by the default `2.0`. -/
def widgets_american_to_decimal (odds : OddsIn) : ℚ :=
  let parsed : Option ℤ :=
    match odds with
    | .int n => some n
    | .str s => parseSigned (removePlus s)
  match parsed with
  | none => 2
  | some o =>
    if o > 0 then (o : ℚ) / 100 + 1
    else if o = 0 then 2
    else 100 / (o.natAbs : ℚ) + 1

/-- Python `int(...)` on a float/rational: truncation toward zero. -/
def pyInt (q : ℚ) : ℤ := if 0 ≤ q then ⌊q⌋ else ⌈q⌉

/-- The parlay's combined American odds as derived in `build_parlay`
(`src/pp_server.py:258,296`): `int((total_odds - 1) * 100)`, applied to every
decimal value with no negative-odds branch, under Python float semantics
(the subtraction and the multiplication each round to binary64; for a
single-leg parlay the loop's `total_odds = 1.0 * decimal` is exact). -/
def parlay_american_fp (total_odds : ℚ) : ℤ := pyInt (fl (fl (total_odds - 1) * 100))

/-- Decimal-to-American conversion as the spec words it (modelled from the
spec for the round-trip comparison): if decimal ≥ 2.0,
`round((decimal-1)*100)`, else `round(-100/(decimal-1))`. -/
def decimalToAmericanSpec (d : ℚ) : ℤ :=
  if 2 ≤ d then round ((d - 1) * 100) else round (-100 / (d - 1))

/-! Section: Historical rate and confidence tiers -/

/-- Embeds `BettingAnalysisTool._get_historical_rate`
(`src/parleyapp_tools.py:247-266`): keyed on substrings of the lower-cased
bet type; pure, so the surrounding `try/except` never fires. -/
def get_historical_rate (bet_type : String) : ℚ :=
  let t := lowerStr bet_type
  if strContains t "over" || strContains t "under" then 52.5
  else if strContains t "spread" then 51.8
  else if strContains t "moneyline" then 58.2
  else 54.0

/-- The seven confidence labels of
`parleyapp_tools.BettingAnalysisTool._calculate_confidence`; the source
returns the strings "MAX CONFIDENCE", "VERY HIGH", "HIGH", "SOLID",
"DECENT", "SLIGHT LEAN", "NO VALUE" (each with emoji prefixes). -/
inductive Confidence where
  | maxConfidence
  | veryHigh
  | high
  | solid
  | decent
  | slightLeanLabel
  | noValue
deriving DecidableEq, Repr

/-- Embeds `BettingAnalysisTool._calculate_confidence`
(`src/parleyapp_tools.py:268-284`). -/
def calculate_confidence (edge : ℚ) : Confidence :=
  if edge ≥ 15 then .maxConfidence
  else if edge ≥ 10 then .veryHigh
  else if edge ≥ 7 then .high
  else if edge ≥ 5 then .solid
  else if edge ≥ 3 then .decent
  else if edge ≥ 1 then .slightLeanLabel
  else .noValue

/-- Position of a label in the ordered label set (0 = lowest). -/
def confidenceRank : Confidence → ℕ
  | .noValue => 0
  | .slightLeanLabel => 1
  | .decent => 2
  | .solid => 3
  | .high => 4
  | .veryHigh => 5
  | .maxConfidence => 6

/-- The five confidence labels of
`pp_tools.BettingAnalysisTool._calculate_confidence`; the source returns the
strings "MAX", "HIGH", "SOLID", "DECENT", "LOW" (with emoji prefixes). -/
inductive PPConfidence where
  | max
  | high
  | solid
  | decent
  | low
deriving DecidableEq, Repr

/-- Embeds `BettingAnalysisTool._calculate_confidence` in `src/pp_tools.py:196-208`:
only four breakpoints (≥10, ≥7, ≥5, ≥3) onto five labels. -/
def pp_calculate_confidence (edge : ℚ) : PPConfidence :=
  if edge ≥ 10 then .max
  else if edge ≥ 7 then .high
  else if edge ≥ 5 then .solid
  else if edge ≥ 3 then .decent
  else .low

/-- Position of a `pp_tools` label in its ordered label set. -/
def ppRank : PPConfidence → ℕ
  | .low => 0
  | .decent => 1
  | .solid => 2
  | .high => 3
  | .max => 4

/-- Modelled from the spec: the confidence tier as an explicit ordered
breakpoint table (≥15, ≥10, ≥7, ≥5, ≥3, ≥1, else below), for comparison
with the code's nested conditionals. -/
def specTierTable : List (ℚ × Confidence) :=
  [(15, .maxConfidence), (10, .veryHigh), (7, .high),
   (5, .solid), (3, .decent), (1, .slightLeanLabel)]

/-- Modelled from the spec: first matching breakpoint wins, else the lowest
label. -/
def confidenceTierSpec (edge : ℚ) : Confidence :=
  match specTierTable.find? (fun p => decide (edge ≥ p.1)) with
  | some p => p.2
  | none => .noValue

/-! Section: Kelly sizing and the full analysis -/

/-- The Kelly-stake expression of `src/parleyapp_tools.py:235`:
`edge / (implied_prob / (1 - implied_prob)) if implied_prob < 1 else 0`.
When `implied_prob = 0` (American odds 0) the division `edge / 0.0` raises
`ZeroDivisionError` in Python, embedded as `none`. -/
def kelly_stake_comp (edge ip : ℚ) : Option ℚ :=
  if ip < 1 then
    (if ip = 0 then none else some (edge / (ip / (1 - ip))))
  else some 0

/-- Embeds `kelly_percentage = max(0, min(25, kelly_stake * 100))`
(`src/parleyapp_tools.py:236`). -/
def kelly_percentage (ks : ℚ) : ℚ := max 0 (min 25 (ks * 100))

/-- A bet as consumed by `analyze_value`: the `odds` entry and the `type`
entry of the bet dict. -/
structure Bet where
  odds : OddsIn
  bet_type : String
deriving DecidableEq, Repr

/-- The numeric content of the dict returned by `analyze_value`
(`src/parleyapp_tools.py:238-245`); the source formats each number into a
display string (`f"{x:.1f}%"`), which we keep as the underlying value.  The
`recommendation` strings carry emoji prefixes in the source. -/
structure Analysis where
  implied_probability : ℚ
  historical_rate : ℚ
  edge : ℚ
  kelly_stake : ℚ
  recommendation : String
  confidence : Confidence
deriving DecidableEq, Repr

/-- Embeds `BettingAnalysisTool.analyze_value` (`src/parleyapp_tools.py:210-245`).
`none` models the uncaught `ZeroDivisionError` (only reachable for American
odds exactly 0). -/
def analyze_value (bet : Bet) : Option Analysis :=
  let o := normalize_odds bet.odds
  let ip := implied_prob o
  let rate := get_historical_rate bet.bet_type
  let edge := rate - ip
  (kelly_stake_comp edge ip).map (fun ks =>
    { implied_probability := ip
      historical_rate := rate
      edge := edge
      kelly_stake := kelly_percentage ks
      recommendation :=
        if edge > 10 then "STRONG BET"
        else if edge > 5 then "SOLID BET"
        else if edge > 2 then "LEAN"
        else "PASS"
      confidence := calculate_confidence edge })

/-! Section: Conversation store (`chatkit_supabase_store.py`, `simple_app.py`)

The Supabase backend is embedded as the table contents (a list of rows);
`Except String` around a table models the client call that can raise, as in
the source's `try`/`except` around every query. -/

/-- A row of `chatkit_thread_items`.  The serialized `item_data` payload
carries the same `id` field as the row (both are set from `item.id` in
`add_thread_item`/`save_item`), so `items[-1].get("id")` in the source is
this row's `id`. -/
structure ItemRow where
  id : String
  thread_id : String
  created_at : String
deriving DecidableEq, Repr

/-- A row of `chatkit_threads`. -/
structure ThreadRow where
  id : String
  title : Option String
  created_at : String
  metadata : List (String × String)
  profile_id : Option String
deriving DecidableEq, Repr

/-- Embeds `chatkit.types.ThreadMetadata` as constructed by the store (id, optional
title, creation timestamp kept as its ISO string, metadata mapping). -/
structure TMeta where
  id : String
  title : Option String
  created_at : String
  metadata : List (String × String)
deriving DecidableEq, Repr

/-- Embeds `chatkit.store.Page` as returned by the store methods. -/
structure Page (α : Type) where
  data : List α
  has_more : Bool
  next_cursor : Option String
deriving DecidableEq, Repr

/-- Insert into a list sorted ascending by `key` (models the database's
`ORDER BY created_at ASC`; ties keep earlier rows first). -/
def insertAscBy (key : α → String) (r : α) : List α → List α
  | [] => [r]
  | x :: xs => if strLt (key r) (key x) then r :: x :: xs else x :: insertAscBy key r xs

/-- Sort ascending by `key`. -/
def sortAscBy (key : α → String) : List α → List α
  | [] => []
  | x :: xs => insertAscBy key x (sortAscBy key xs)

/-- Insert into a list sorted descending by `key` (models
`ORDER BY created_at DESC`). -/
def insertDescBy (key : α → String) (r : α) : List α → List α
  | [] => [r]
  | x :: xs => if strLt (key x) (key r) then r :: x :: xs else x :: insertDescBy key r xs

/-- Sort descending by `key`. -/
def sortDescBy (key : α → String) : List α → List α
  | [] => []
  | x :: xs => insertDescBy key x (sortDescBy key xs)

/-- The records of `chatkit_thread_items` that qualify for a
`load_thread_items` call: same thread, and `created_at` strictly greater
than the cursor when one is supplied (`query.gt("created_at", after)`). -/
def qualifying_items (table : List ItemRow) (tid : String) (after : Option String) :
    List ItemRow :=
  let q := table.filter (fun r => r.thread_id == tid)
  match after with
  | some a => q.filter (fun r => strLt a r.created_at)
  | none => q

/-- Embeds `SupabaseStore.load_thread_items` (`src/chatkit_supabase_store.py:92-136`),
success path: filter by thread and cursor, order by `created_at`, take
`limit`; `has_more = len(items) >= limit`; `next_cursor` is the **id** of the
last returned item when the page is nonempty and `has_more` holds. -/
def load_thread_items (table : List ItemRow) (tid : String) (after : Option String)
    (limit : ℕ) (order : String) : Page ItemRow :=
  let q := qualifying_items table tid after
  let sorted := if order == "asc" then sortAscBy (fun r => r.created_at) q
                else sortDescBy (fun r => r.created_at) q
  let items := sorted.take limit
  let hm : Bool := decide (limit ≤ items.length)
  { data := items
    has_more := hm
    next_cursor :=
      if hm && !items.isEmpty then items.getLast?.map (fun r => r.id) else none }

/-- Embeds `SupabaseStore.load_thread_items` including the `except` clause
(`src/chatkit_supabase_store.py:137-139`): any storage exception is printed
and replaced by an empty page. -/
def load_thread_items_result (backend : Except String (List ItemRow)) (tid : String)
    (after : Option String) (limit : ℕ) (order : String) : Page ItemRow :=
  match backend with
  | .error _ => { data := [], has_more := false, next_cursor := none }
  | .ok table => load_thread_items table tid after limit order

/-- The records of `chatkit_threads` that qualify for a `load_threads` call:
optionally filtered by `profile_id` when the context carries a `user_id`,
then `created_at` strictly greater than the cursor. -/
def qualifying_threads (table : List ThreadRow) (user_id : Option String)
    (after : Option String) : List ThreadRow :=
  let q := match user_id with
           | some uid => table.filter (fun r => r.profile_id == some uid)
           | none => table
  match after with
  | some a => q.filter (fun r => strLt a r.created_at)
  | none => q

/-- Embeds `SupabaseStore.load_threads` (`src/chatkit_supabase_store.py:178-221`),
success path; same pagination shape as `load_thread_items`. -/
def load_threads (table : List ThreadRow) (user_id : Option String)
    (after : Option String) (limit : ℕ) (order : String) : Page TMeta :=
  let q := qualifying_threads table user_id after
  let sorted := if order == "asc" then sortAscBy (fun r => r.created_at) q
                else sortDescBy (fun r => r.created_at) q
  let rows := sorted.take limit
  let threads := rows.map (fun r => TMeta.mk r.id r.title r.created_at r.metadata)
  let hm : Bool := decide (limit ≤ threads.length)
  { data := threads
    has_more := hm
    next_cursor :=
      if hm && !threads.isEmpty then threads.getLast?.map (fun t => t.id) else none }

/-- Embeds `SupabaseStore.load_threads` including the `except` clause
(`src/chatkit_supabase_store.py:222-224`). -/
def load_threads_result (backend : Except String (List ThreadRow)) (user_id : Option String)
    (after : Option String) (limit : ℕ) (order : String) : Page TMeta :=
  match backend with
  | .error _ => { data := [], has_more := false, next_cursor := none }
  | .ok table => load_threads table user_id after limit order

/-- The freshly-initialized default thread both miss branches of
`SupabaseStore.load_thread` construct: given id, `datetime.now()` as the
creation timestamp, empty metadata, no title. -/
def defaultThreadMeta (tid now : String) : TMeta :=
  { id := tid, title := none, created_at := now, metadata := [] }

/-- Embeds `SupabaseStore.load_thread` (`src/chatkit_supabase_store.py:47-74`):
select by id; on no rows return the default thread; on any exception print
and return the same default thread.  `now` stands for `datetime.now()`. -/
def supa_load_thread (backend : Except String (List ThreadRow)) (tid now : String) :
    TMeta :=
  match backend with
  | .error _ => defaultThreadMeta tid now
  | .ok table =>
    match table.filter (fun r => r.id == tid) with
    | [] => defaultThreadMeta tid now
    | row :: _ => { id := row.id, title := row.title,
                    created_at := row.created_at, metadata := row.metadata }

/-- A thread as held by `simple_app.MemoryStore` (id, creation timestamp,
metadata; the `status=ActiveStatus()` field is constant and omitted). -/
structure MemThread where
  id : String
  created_at : String
  metadata : List (String × String)
deriving DecidableEq, Repr

/-- Embeds `MemoryStore.load_thread` (`src/simple_app.py:38-50`): look the id up in
the `threads` dict; on a miss build the default thread, **store it in the
dict** (`self.threads[thread_id] = thread`), and return it.  The dict is an
insertion-ordered association list; a new key is appended. -/
def mem_load_thread (threads : List (String × MemThread)) (tid now : String) :
    MemThread × List (String × MemThread) :=
  match threads.lookup tid with
  | some t => (t, threads)
  | none =>
    let t : MemThread := { id := tid, created_at := now, metadata := [] }
    (t, threads ++ [(tid, t)])

/-- The client-side pagination loop of the claim: call `load_thread_items`
from a cursor, and re-submit the returned `next_cursor` until it is null.
`fuel` bounds the recursion. -/
def paginate_items (table : List ItemRow) (tid : String) (limit : ℕ) (order : String) :
    ℕ → Option String → List ItemRow
  | 0, _ => []
  | fuel + 1, cursor =>
    let page := load_thread_items table tid cursor limit order
    page.data ++
      (match page.next_cursor with
       | none => []
       | some c => paginate_items table tid limit order fuel (some c))

/-! Section: helper lemmas -/

theorem length_insertAscBy (key : α → String) (r : α) (l : List α) :
    (insertAscBy key r l).length = l.length + 1 := by
  induction l with
  | nil => rfl
  | cons x xs ih =>
    simp only [insertAscBy]
    split
    · simp
    · simp [ih]

theorem length_sortAscBy (key : α → String) (l : List α) :
    (sortAscBy key l).length = l.length := by
  induction l with
  | nil => rfl
  | cons x xs ih => simp [sortAscBy, length_insertAscBy, ih]

theorem length_insertDescBy (key : α → String) (r : α) (l : List α) :
    (insertDescBy key r l).length = l.length + 1 := by
  induction l with
  | nil => rfl
  | cons x xs ih =>
    simp only [insertDescBy]
    split
    · simp
    · simp [ih]

theorem length_sortDescBy (key : α → String) (l : List α) :
    (sortDescBy key l).length = l.length := by
  induction l with
  | nil => rfl
  | cons x xs ih => simp [sortDescBy, length_insertDescBy, ih]

theorem length_orderSort (key : α → String) (order : String) (l : List α) :
    (if order == "asc" then sortAscBy key l else sortDescBy key l).length
      = l.length := by
  split
  · exact length_sortAscBy key l
  · exact length_sortDescBy key l

theorem log2_eq_of_bounds {q : ℚ} {e : ℤ} (h0 : 0 < q)
    (h1 : ((2:ℕ):ℚ) ^ e ≤ q) (h2 : q < ((2:ℕ):ℚ) ^ (e + 1)) :
    Int.log 2 q = e := by
  have hle : e ≤ Int.log 2 q := (Int.zpow_le_iff_le_log one_lt_two h0).mp h1
  have hlt : Int.log 2 q < e + 1 := (Int.lt_zpow_iff_log_lt one_lt_two h0).mp h2
  omega

theorem fl_eval {q : ℚ} {e : ℤ} (h0 : 0 < q)
    (h1 : ((2:ℕ):ℚ) ^ e ≤ q) (h2 : q < ((2:ℕ):ℚ) ^ (e + 1)) :
    fl q = (rte (q * 2 ^ ((52:ℤ) - e)) : ℚ) / 2 ^ ((52:ℤ) - e) := by
  unfold fl
  rw [if_neg (ne_of_gt h0), abs_of_pos h0, log2_eq_of_bounds h0 h1 h2]

theorem rte_lt {q : ℚ} {n : ℤ} (hf : ⌊q⌋ = n) (h : q - n < 1/2) : rte q = n := by
  unfold rte
  rw [hf, if_pos h]

theorem rte_gt {q : ℚ} {n : ℤ} (hf : ⌊q⌋ = n) (h : 1/2 < q - n) : rte q = n + 1 := by
  unfold rte
  rw [hf, if_neg (by linarith), if_pos h]

theorem rte_tie_even {q : ℚ} {n : ℤ} (hf : ⌊q⌋ = n) (h : q - n = 1/2)
    (hn : n % 2 = 0) : rte q = n := by
  unfold rte
  rw [hf, if_neg (by linarith), if_neg (by linarith), if_pos hn]

theorem rte_tie_odd {q : ℚ} {n : ℤ} (hf : ⌊q⌋ = n) (h : q - n = 1/2)
    (hn : ¬ n % 2 = 0) : rte q = n + 1 := by
  unfold rte
  rw [hf, if_neg (by linarith), if_neg (by linarith), if_neg hn]

/-- Step values of the binary64 chain for +130:
`130/100` rounds up to the double 1.3 (the rational just above 13/10). -/
theorem fl_130_div : fl ((130:ℚ)/100) = 5854679515581645/4503599627370496 := by
  rw [fl_eval (e := 0) (by norm_num) (by norm_num) (by norm_num),
      show ((130:ℚ)/100 * 2 ^ ((52:ℤ) - 0)) = 29273397577908224/5 by norm_num,
      rte_gt (n := 5854679515581644) (by norm_num) (by norm_num)]
  norm_num

/-- Adding 1 to the double 1.3 hits an exact tie, resolved to the even
significand: the double 2.3 is 2589569785738035/2^50 ≈ 2.2999999999999998. -/
theorem fl_130_add_one :
    fl ((5854679515581645:ℚ)/4503599627370496 + 1)
      = 2589569785738035/1125899906842624 := by
  rw [show ((5854679515581645:ℚ)/4503599627370496 + 1)
        = 10358279142952141/4503599627370496 by norm_num,
      fl_eval (e := 1) (by norm_num) (by norm_num) (by norm_num),
      show ((10358279142952141:ℚ)/4503599627370496 * 2 ^ ((52:ℤ) - 1))
        = 10358279142952141/2 by norm_num,
      rte_tie_even (n := 5179139571476070) (by norm_num) (by norm_num) (by norm_num)]
  norm_num

/-- Subtracting 1 from the double 2.3 is exact (Sterbenz), giving
1.2999999999999998. -/
theorem fl_130_sub_one :
    fl ((2589569785738035:ℚ)/1125899906842624 - 1)
      = 1463669878895411/1125899906842624 := by
  rw [show ((2589569785738035:ℚ)/1125899906842624 - 1)
        = 1463669878895411/1125899906842624 by norm_num,
      fl_eval (e := 0) (by norm_num) (by norm_num) (by norm_num),
      show ((1463669878895411:ℚ)/1125899906842624 * 2 ^ ((52:ℤ) - 0))
        = 5854679515581644 by norm_num,
      rte_lt (n := 5854679515581644) (by norm_num) (by norm_num)]
  norm_num

/-- Multiplying 1.2999999999999998 by 100 rounds down to
129.99999999999997, whose truncation is 129. -/
theorem fl_130_mul_100 :
    fl ((1463669878895411:ℚ)/1125899906842624 * 100)
      = 4573968371548159/35184372088832 := by
  rw [show ((1463669878895411:ℚ)/1125899906842624 * 100)
        = 36591746972385275/281474976710656 by norm_num,
      fl_eval (e := 7) (by norm_num) (by norm_num) (by norm_num),
      show ((36591746972385275:ℚ)/281474976710656 * 2 ^ ((52:ℤ) - 7))
        = 36591746972385275/8 by norm_num,
      rte_lt (n := 4573968371548159) (by norm_num) (by norm_num)]
  norm_num

/-- Step values of the binary64 chain for −110: `100/110` rounds to the
double 0.9090909090909091. -/
theorem fl_110_div : fl ((100:ℚ)/110) = 8188362958855447/9007199254740992 := by
  rw [fl_eval (e := -1) (by norm_num) (by norm_num) (by norm_num),
      show ((100:ℚ)/110 * 2 ^ ((52:ℤ) - (-1))) = 90071992547409920/11 by norm_num,
      rte_lt (n := 8188362958855447) (by norm_num) (by norm_num)]
  norm_num

/-- Adding 1 hits an exact tie on an odd significand, rounding up to the
double 1.9090909090909092. -/
theorem fl_110_add_one :
    fl ((8188362958855447:ℚ)/9007199254740992 + 1)
      = 2149445276699555/1125899906842624 := by
  rw [show ((8188362958855447:ℚ)/9007199254740992 + 1)
        = 17195562213596439/9007199254740992 by norm_num,
      fl_eval (e := 0) (by norm_num) (by norm_num) (by norm_num),
      show ((17195562213596439:ℚ)/9007199254740992 * 2 ^ ((52:ℤ) - 0))
        = 17195562213596439/2 by norm_num,
      rte_tie_odd (n := 8597781106798219) (by norm_num) (by norm_num) (by norm_num)]
  norm_num

/-- Subtracting 1 is exact, giving 0.9090909090909092 (one ulp above the
original quotient). -/
theorem fl_110_sub_one :
    fl ((2149445276699555:ℚ)/1125899906842624 - 1)
      = 1023545369856931/1125899906842624 := by
  rw [show ((2149445276699555:ℚ)/1125899906842624 - 1)
        = 1023545369856931/1125899906842624 by norm_num,
      fl_eval (e := -1) (by norm_num) (by norm_num) (by norm_num),
      show ((1023545369856931:ℚ)/1125899906842624 * 2 ^ ((52:ℤ) - (-1)))
        = 8188362958855448 by norm_num,
      rte_lt (n := 8188362958855448) (by norm_num) (by norm_num)]
  norm_num

/-- Multiplying by 100 rounds up to 90.90909090909092, whose truncation is
90. -/
theorem fl_110_mul_100 :
    fl ((1023545369856931:ℚ)/1125899906842624 * 100)
      = 6397158561605819/70368744177664 := by
  rw [show ((1023545369856931:ℚ)/1125899906842624 * 100)
        = 25588634246423275/281474976710656 by norm_num,
      fl_eval (e := 6) (by norm_num) (by norm_num) (by norm_num),
      show ((25588634246423275:ℚ)/281474976710656 * 2 ^ ((52:ℤ) - 6))
        = 25588634246423275/4 by norm_num,
      rte_gt (n := 6397158561605818) (by norm_num) (by norm_num)]
  norm_num

theorem implied_prob_neg110 : implied_prob (-110) = 11/21 := by
  unfold implied_prob
  rw [if_neg (by norm_num : ¬ ((-110 : ℤ) > 0)),
      show ((-110 : ℤ).natAbs) = (110 : ℕ) from rfl]
  norm_num

/-- Concrete evaluation of `analyze_value` on a moneyline bet at American
odds −110 (historical rate 58.2, implied probability 11/21 ≈ 0.524): the
computed edge is 6056/105 ≈ 57.7 and the Kelly percentage clamps to 25. -/
theorem analyze_value_eval_neg110 :
    analyze_value { odds := OddsIn.int (-110), bet_type := "moneyline" }
      = some { implied_probability := 11/21
               historical_rate := 291/5
               edge := 6056/105
               kelly_stake := 25
               recommendation := "STRONG BET"
               confidence := Confidence.maxConfidence } := by
  simp only [analyze_value,
    show normalize_odds (OddsIn.int (-110)) = -110 from rfl,
    show get_historical_rate "moneyline" = 58.2 from rfl, implied_prob_neg110]
  have hedge : (58.2 : ℚ) - 11/21 = 6056/105 := by norm_num
  rw [hedge]
  unfold kelly_stake_comp
  rw [if_pos (by norm_num : (11/21 : ℚ) < 1),
      if_neg (by norm_num : ¬ (11/21 : ℚ) = 0)]
  simp only [Option.map_some']
  refine congrArg some ?_
  have hks : (6056/105 : ℚ) / (11/21 / (1 - 11/21)) = 12112/231 := by norm_num
  simp only [hks]
  have hkp : kelly_percentage (12112/231) = 25 := by
    unfold kelly_percentage
    rw [show (12112/231 : ℚ) * 100 = 1211200/231 by norm_num,
        min_eq_left (by norm_num : (25 : ℚ) ≤ 1211200/231),
        max_eq_right (by norm_num : (0 : ℚ) ≤ 25)]
  rw [hkp, if_pos (by norm_num : (6056/105 : ℚ) > 10)]
  unfold calculate_confidence
  rw [if_pos (by norm_num : (6056/105 : ℚ) ≥ 15)]
  norm_num [Analysis.mk.injEq]

/-! Section: claim theorems -/

/-- C1: the claim says `edge = historicalHitRate − impliedProbability` in
percentage points, with the scenario (hit rate 58%, odds −110) producing
implied probability ≈ 52.4%, edge ≈ +5.6 points and tier "solid".  The code
mixes units: `historical_rate` is a percentage (58.2 for a moneyline) while
`implied_prob` is a fraction (11/21 ≈ 0.524), so the computed edge is
6056/105 ≈ 57.7, the tier is MAX CONFIDENCE, and the displayed implied
probability (`f"{implied_prob:.1f}%"`) reads "0.5%".  On matched units the
edge would be 611/105 ≈ 5.8 and the tier solid, as the claim states. -/
theorem C1_edge_mixes_units :
    analyze_value { odds := OddsIn.int (-110), bet_type := "moneyline" }
      = some { implied_probability := 11/21
               historical_rate := 291/5
               edge := 6056/105
               kelly_stake := 25
               recommendation := "STRONG BET"
               confidence := Confidence.maxConfidence }
    ∧ (291/5 : ℚ) - 100 * implied_prob (-110) = 611/105
    ∧ calculate_confidence (611/105) = Confidence.solid
    ∧ (6056/105 : ℚ) ≠ 611/105 := by
  refine ⟨analyze_value_eval_neg110, ?_, ?_, by norm_num⟩
  · rw [implied_prob_neg110]; norm_num
  · unfold calculate_confidence
    rw [if_neg (by norm_num : ¬ (611/105 : ℚ) ≥ 15),
        if_neg (by norm_num : ¬ (611/105 : ℚ) ≥ 10),
        if_neg (by norm_num : ¬ (611/105 : ℚ) ≥ 7),
        if_pos (by norm_num : (611/105 : ℚ) ≥ 5)]

/-- C2: the claim says repeated pagination from an empty cursor yields all N
items with no gaps.  The code's `next_cursor` is the last item's **id**, but
its own `after` parameter is compared against `created_at`
(`query.gt("created_at", after)`); since ISO timestamps sort below the
`msg_`-prefixed ids, the second page is always empty, so a thread of 3 items
paged with limit 2 yields only the first 2 items. -/
theorem C2_pagination_loses_items :
    (paginate_items
        [{ id := "msg_a", thread_id := "t1", created_at := "2025-01-01T00:00:01" },
         { id := "msg_b", thread_id := "t1", created_at := "2025-01-01T00:00:02" },
         { id := "msg_c", thread_id := "t1", created_at := "2025-01-01T00:00:03" }]
        "t1" 2 "asc" 5 none).map (fun r => r.id) = ["msg_a", "msg_b"]
    ∧ (load_thread_items
        [{ id := "msg_a", thread_id := "t1", created_at := "2025-01-01T00:00:01" },
         { id := "msg_b", thread_id := "t1", created_at := "2025-01-01T00:00:02" },
         { id := "msg_c", thread_id := "t1", created_at := "2025-01-01T00:00:03" }]
        "t1" none 2 "asc").next_cursor = some "msg_b"
    ∧ (load_thread_items
        [{ id := "msg_a", thread_id := "t1", created_at := "2025-01-01T00:00:01" },
         { id := "msg_b", thread_id := "t1", created_at := "2025-01-01T00:00:02" },
         { id := "msg_c", thread_id := "t1", created_at := "2025-01-01T00:00:03" }]
        "t1" (some "msg_b") 2 "asc").data = [] := by
  refine ⟨?_, ?_, ?_⟩ <;> decide

/-- C3 counterexample: with exactly `limit` qualifying records (here 3),
`load_thread_items` reports `has_more = true`, though strictly more than
`limit` records do not exist. -/
theorem C3_has_more_spurious_at_exact_limit :
    (load_thread_items
        [{ id := "msg_a", thread_id := "t2", created_at := "2025-01-01T00:00:01" },
         { id := "msg_b", thread_id := "t2", created_at := "2025-01-01T00:00:02" },
         { id := "msg_c", thread_id := "t2", created_at := "2025-01-01T00:00:03" }]
        "t2" none 3 "asc").has_more = true
    ∧ ¬ (3 < (qualifying_items
        [{ id := "msg_a", thread_id := "t2", created_at := "2025-01-01T00:00:01" },
         { id := "msg_b", thread_id := "t2", created_at := "2025-01-01T00:00:02" },
         { id := "msg_c", thread_id := "t2", created_at := "2025-01-01T00:00:03" }]
        "t2" none).length) := by
  refine ⟨?_, ?_⟩ <;> decide

/-- C3 amended: `has_more` is true iff **at least** `limit` qualifying
records exist (the page came back full), not iff strictly more than `limit`
exist — both for `load_thread_items` and for `load_threads`. -/
theorem C3_has_more_iff_at_least_limit :
    (∀ (table : List ItemRow) (tid : String) (after : Option String)
        (limit : ℕ) (order : String),
      (load_thread_items table tid after limit order).has_more = true
        ↔ limit ≤ (qualifying_items table tid after).length)
    ∧ (∀ (table : List ThreadRow) (uid : Option String) (after : Option String)
        (limit : ℕ) (order : String),
      (load_threads table uid after limit order).has_more = true
        ↔ limit ≤ (qualifying_threads table uid after).length) := by
  constructor
  · intro table tid after limit order
    show decide (limit ≤ _) = true ↔ _
    rw [decide_eq_true_iff, List.length_take, length_orderSort]
    omega
  · intro table uid after limit order
    show decide (limit ≤ _) = true ↔ _
    rw [decide_eq_true_iff, List.length_map, List.length_take, length_orderSort]
    omega

/-- C4 counterexample: under the program's binary64 arithmetic, American
odds −110 convert to the double 1.9090909090909092 and the parlay
derivation `int((decimal - 1) * 100)` maps that back to +90, not −110 —
far beyond any rounding tolerance; the spec's own negative branch
`round(-100/(decimal-1))` at the ideal decimal 21/11 would give −110. -/
theorem C4_roundtrip_fails_negative :
    (pp_american_to_decimal_fp (-110)).map parlay_american_fp = some 90
    ∧ decimalToAmericanSpec (21/11) = -110
    ∧ (90 : ℤ) ≠ -110 := by
  refine ⟨?_, ?_, by decide⟩
  · unfold pp_american_to_decimal_fp
    rw [if_neg (by norm_num : ¬ ((-110 : ℤ) > 0)),
        if_neg (by norm_num : ¬ ((-110 : ℤ) = 0)),
        show ((-110 : ℤ).natAbs) = (110 : ℕ) from rfl,
        show ((100 : ℚ) / ((110 : ℕ) : ℚ)) = 100/110 by norm_num,
        fl_110_div, fl_110_add_one]
    simp only [Option.map_some']
    unfold parlay_american_fp
    rw [fl_110_sub_one, fl_110_mul_100]
    unfold pyInt
    rw [if_pos (by norm_num : (0 : ℚ) ≤ 6397158561605819/70368744177664)]
    norm_num
  · unfold decimalToAmericanSpec
    rw [if_neg (by norm_num : ¬ (2 : ℚ) ≤ 21/11),
        show (-100 / ((21 : ℚ)/11 - 1)) = -110 by norm_num]
    norm_num [round_eq]

/-- C4 amended: the parlay derivation applies `int((decimal - 1) * 100)` to
every decimal, with no `round(-100/(decimal-1))` branch for decimals below
2.0.  Under the program's binary64 float arithmetic the round trip is not
exact even for positive odds: +130 converts to the double 2.3 and back to
+129 (`int` truncates 129.99999999999997), one unit low; for negative odds
it fails outright, −110 returning +90. -/
theorem C4_roundtrip_binary64 :
    (pp_american_to_decimal_fp 130).map parlay_american_fp = some 129
    ∧ (pp_american_to_decimal_fp (-110)).map parlay_american_fp = some 90 := by
  constructor
  · unfold pp_american_to_decimal_fp
    rw [if_pos (by norm_num : (130 : ℤ) > 0),
        show (((130 : ℤ) : ℚ) / 100) = 130/100 by norm_num,
        fl_130_div, fl_130_add_one]
    simp only [Option.map_some']
    unfold parlay_american_fp
    rw [fl_130_sub_one, fl_130_mul_100]
    unfold pyInt
    rw [if_pos (by norm_num : (0 : ℚ) ≤ 4573968371548159/35184372088832)]
    norm_num
  · unfold pp_american_to_decimal_fp
    rw [if_neg (by norm_num : ¬ ((-110 : ℤ) > 0)),
        if_neg (by norm_num : ¬ ((-110 : ℤ) = 0)),
        show ((-110 : ℤ).natAbs) = (110 : ℕ) from rfl,
        show ((100 : ℚ) / ((110 : ℕ) : ℚ)) = 100/110 by norm_num,
        fl_110_div, fl_110_add_one]
    simp only [Option.map_some']
    unfold parlay_american_fp
    rw [fl_110_sub_one, fl_110_mul_100]
    unfold pyInt
    rw [if_pos (by norm_num : (0 : ℚ) ≤ 6397158561605819/70368744177664)]
    norm_num

/-- C5 counterexample: invalid odds do not produce a rejection. The widget
converter maps odds 0 and the malformed encoding "abc" to the best-effort
decimal 2.0 via its bare `except`, and `analyze_value` substitutes −110 for
a malformed odds string and still produces a quote. -/
theorem C5_invalid_inputs_substituted :
    widgets_american_to_decimal (OddsIn.int 0) = 2
    ∧ widgets_american_to_decimal (OddsIn.str "abc") = 2
    ∧ normalize_odds (OddsIn.str "abc") = -110
    ∧ (analyze_value { odds := OddsIn.str "abc", bet_type := "spread" }).isSome
        = true := by
  refine ⟨rfl, rfl, rfl, ?_⟩
  simp only [analyze_value,
    show normalize_odds (OddsIn.str "abc") = -110 from rfl,
    show get_historical_rate "spread" = 51.8 from rfl, implied_prob_neg110]
  unfold kelly_stake_comp
  rw [if_pos (by norm_num : (11/21 : ℚ) < 1),
      if_neg (by norm_num : ¬ (11/21 : ℚ) = 0)]
  rfl

/-- C5 amended: invalid analytics inputs are replaced by best-effort
defaults rather than rejected: a string the parser cannot read becomes
decimal 2.0 in the widget converter (as does odds 0, via the bare `except`)
and odds −110 in `analyze_value`; an implied probability of 1 yields Kelly
stake 0 instead of a rejection.  Only American odds exactly 0 inside
`analyze_value` blocks the quote, by escaping as an uncaught
`ZeroDivisionError`. -/
theorem C5_invalid_inputs_defaulted :
    (∀ s, parseSigned (removePlus s) = none →
        widgets_american_to_decimal (OddsIn.str s) = 2)
    ∧ (∀ s, parseDigits (removeSigns s) = none →
        normalize_odds (OddsIn.str s) = -110)
    ∧ (∀ edge, kelly_stake_comp edge 1 = some 0)
    ∧ (∀ bet, normalize_odds bet.odds = 0 → analyze_value bet = none) := by
  refine ⟨?_, ?_, ?_, ?_⟩
  · intro s h
    simp [widgets_american_to_decimal, h]
  · intro s h
    simp [normalize_odds, h]
  · intro edge
    unfold kelly_stake_comp
    rw [if_neg (by norm_num : ¬ (1 : ℚ) < 1)]
  · intro bet h
    have hip : implied_prob (normalize_odds bet.odds) = 0 := by
      rw [h]
      unfold implied_prob
      norm_num
    simp only [analyze_value, hip]
    unfold kelly_stake_comp
    rw [if_pos (by norm_num : (0 : ℚ) < 1), if_pos rfl]
    rfl

/-- C5 witness: the amended behavior at concrete inputs — the malformed
string "1.5x" is defaulted by both converters, and odds 0 blocks the
quote. -/
theorem C5_invalid_inputs_defaulted_witness :
    widgets_american_to_decimal (OddsIn.str "1.5x") = 2
    ∧ normalize_odds (OddsIn.str "1.5x") = -110
    ∧ analyze_value { odds := OddsIn.int 0, bet_type := "spread" } = none :=
  ⟨C5_invalid_inputs_defaulted.1 "1.5x" rfl,
   C5_invalid_inputs_defaulted.2.1 "1.5x" rfl,
   C5_invalid_inputs_defaulted.2.2.2 { odds := OddsIn.int 0, bet_type := "spread" }
     rfl⟩

/-- C6: every analysis the code produces carries a Kelly stake percentage
clamped into [0, 25] — i.e. a stake fraction in [0, 0.25] — no matter how
large the edge is (`max(0, min(25, kelly_stake * 100))`). -/
theorem C6_kelly_stake_clamped (bet : Bet) (r : Analysis)
    (h : analyze_value bet = some r) :
    0 ≤ r.kelly_stake ∧ r.kelly_stake ≤ 25 := by
  unfold analyze_value at h
  rw [Option.map_eq_some'] at h
  obtain ⟨ks, -, rfl⟩ := h
  unfold kelly_percentage
  exact ⟨le_max_left _ _, max_le (by norm_num) (min_le_left _ _)⟩

/-- C6 witness: the clamp at the concrete moneyline −110 bet, whose raw
Kelly value (≈ 5243%) is capped to 25%. -/
theorem C6_kelly_stake_clamped_witness :
    0 ≤ (Analysis.mk (11/21) (291/5) (6056/105) 25 "STRONG BET"
          Confidence.maxConfidence).kelly_stake
    ∧ (Analysis.mk (11/21) (291/5) (6056/105) 25 "STRONG BET"
          Confidence.maxConfidence).kelly_stake ≤ 25 :=
  C6_kelly_stake_clamped { odds := OddsIn.int (-110), bet_type := "moneyline" }
    (Analysis.mk (11/21) (291/5) (6056/105) 25 "STRONG BET"
      Confidence.maxConfidence)
    analyze_value_eval_neg110

/-- C7 counterexample: the claim's breakpoint table (≥15, ≥10, ≥7, ≥5, ≥3,
≥1 onto seven labels) does not describe the `pp_tools` variant, which has
only four breakpoints onto five labels: at edges 1 and 0 it returns the same
bottom label, where the claimed table distinguishes slight-lean from
no-value (as the `parleyapp_tools` variant does). -/
theorem C7_pp_variant_is_coarser :
    pp_calculate_confidence 1 = PPConfidence.low
    ∧ pp_calculate_confidence 0 = PPConfidence.low
    ∧ confidenceTierSpec 1 = Confidence.slightLeanLabel
    ∧ confidenceTierSpec 0 = Confidence.noValue
    ∧ calculate_confidence 1 = Confidence.slightLeanLabel
    ∧ calculate_confidence 0 = Confidence.noValue := by
  refine ⟨?_, ?_, ?_, ?_, ?_, ?_⟩
  · unfold pp_calculate_confidence
    rw [if_neg (by norm_num : ¬ (1 : ℚ) ≥ 10), if_neg (by norm_num : ¬ (1 : ℚ) ≥ 7),
        if_neg (by norm_num : ¬ (1 : ℚ) ≥ 5), if_neg (by norm_num : ¬ (1 : ℚ) ≥ 3)]
  · unfold pp_calculate_confidence
    rw [if_neg (by norm_num : ¬ (0 : ℚ) ≥ 10), if_neg (by norm_num : ¬ (0 : ℚ) ≥ 7),
        if_neg (by norm_num : ¬ (0 : ℚ) ≥ 5), if_neg (by norm_num : ¬ (0 : ℚ) ≥ 3)]
  · simp only [confidenceTierSpec, specTierTable, List.find?]
    norm_num
  · simp only [confidenceTierSpec, specTierTable, List.find?]
    norm_num
  · unfold calculate_confidence
    rw [if_neg (by norm_num : ¬ (1 : ℚ) ≥ 15), if_neg (by norm_num : ¬ (1 : ℚ) ≥ 10),
        if_neg (by norm_num : ¬ (1 : ℚ) ≥ 7), if_neg (by norm_num : ¬ (1 : ℚ) ≥ 5),
        if_neg (by norm_num : ¬ (1 : ℚ) ≥ 3), if_pos (by norm_num : (1 : ℚ) ≥ 1)]
  · unfold calculate_confidence
    rw [if_neg (by norm_num : ¬ (0 : ℚ) ≥ 15), if_neg (by norm_num : ¬ (0 : ℚ) ≥ 10),
        if_neg (by norm_num : ¬ (0 : ℚ) ≥ 7), if_neg (by norm_num : ¬ (0 : ℚ) ≥ 5),
        if_neg (by norm_num : ¬ (0 : ℚ) ≥ 3), if_neg (by norm_num : ¬ (0 : ℚ) ≥ 1)]

theorem rank_calculate_confidence (e : ℚ) :
    confidenceRank (calculate_confidence e)
      = (if e ≥ 1 then 1 else 0) + (if e ≥ 3 then 1 else 0)
        + (if e ≥ 5 then 1 else 0) + (if e ≥ 7 then 1 else 0)
        + (if e ≥ 10 then 1 else 0) + (if e ≥ 15 then 1 else 0) := by
  unfold calculate_confidence
  by_cases h15 : e ≥ 15
  · simp [confidenceRank, h15, show e ≥ 10 by linarith, show e ≥ 7 by linarith,
      show e ≥ 5 by linarith, show e ≥ 3 by linarith, show e ≥ 1 by linarith]
  · by_cases h10 : e ≥ 10
    · simp [confidenceRank, h15, h10, show e ≥ 7 by linarith,
        show e ≥ 5 by linarith, show e ≥ 3 by linarith, show e ≥ 1 by linarith]
    · by_cases h7 : e ≥ 7
      · simp [confidenceRank, h15, h10, h7, show e ≥ 5 by linarith,
          show e ≥ 3 by linarith, show e ≥ 1 by linarith]
      · by_cases h5 : e ≥ 5
        · simp [confidenceRank, h15, h10, h7, h5, show e ≥ 3 by linarith,
            show e ≥ 1 by linarith]
        · by_cases h3 : e ≥ 3
          · simp [confidenceRank, h15, h10, h7, h5, h3, show e ≥ 1 by linarith]
          · by_cases h1 : e ≥ 1
            · simp [confidenceRank, h15, h10, h7, h5, h3, h1]
            · simp [confidenceRank, h15, h10, h7, h5, h3, h1]

theorem rank_pp_calculate_confidence (e : ℚ) :
    ppRank (pp_calculate_confidence e)
      = (if e ≥ 3 then 1 else 0) + (if e ≥ 5 then 1 else 0)
        + (if e ≥ 7 then 1 else 0) + (if e ≥ 10 then 1 else 0) := by
  unfold pp_calculate_confidence
  by_cases h10 : e ≥ 10
  · simp [ppRank, h10, show e ≥ 7 by linarith, show e ≥ 5 by linarith,
      show e ≥ 3 by linarith]
  · by_cases h7 : e ≥ 7
    · simp [ppRank, h10, h7, show e ≥ 5 by linarith, show e ≥ 3 by linarith]
    · by_cases h5 : e ≥ 5
      · simp [ppRank, h10, h7, h5, show e ≥ 3 by linarith]
      · by_cases h3 : e ≥ 3
        · simp [ppRank, h10, h7, h5, h3]
        · simp [ppRank, h10, h7, h5, h3]

theorem indicator_mono {a b : ℚ} (hab : a ≤ b) (c : ℚ) :
    (if a ≥ c then (1 : ℕ) else 0) ≤ (if b ≥ c then 1 else 0) := by
  split_ifs with h1 h2
  · exact le_refl 1
  · exact absurd (h1.trans hab) h2
  · exact Nat.zero_le 1
  · exact le_refl 0

/-- C7 amended: the `parleyapp_tools` tier function coincides with the
claimed seven-breakpoint ordered table and is monotone non-decreasing in
edge; the `pp_tools` variant is a coarser five-label step function
(breakpoints ≥10, ≥7, ≥5, ≥3) but is also monotone non-decreasing in its
own label order. -/
theorem C7_confidence_tiers_monotone :
    (∀ e : ℚ, calculate_confidence e = confidenceTierSpec e)
    ∧ (∀ a b : ℚ, a ≤ b →
        confidenceRank (calculate_confidence a)
          ≤ confidenceRank (calculate_confidence b))
    ∧ (∀ a b : ℚ, a ≤ b →
        ppRank (pp_calculate_confidence a) ≤ ppRank (pp_calculate_confidence b)) := by
  refine ⟨?_, ?_, ?_⟩
  · intro e
    simp only [confidenceTierSpec, specTierTable, List.find?, calculate_confidence]
    by_cases h15 : e ≥ 15
    · simp [h15]
    · by_cases h10 : e ≥ 10
      · simp [h15, h10]
      · by_cases h7 : e ≥ 7
        · simp [h15, h10, h7]
        · by_cases h5 : e ≥ 5
          · simp [h15, h10, h7, h5]
          · by_cases h3 : e ≥ 3
            · simp [h15, h10, h7, h5, h3]
            · by_cases h1 : e ≥ 1
              · simp [h15, h10, h7, h5, h3, h1]
              · simp [h15, h10, h7, h5, h3, h1]
  · intro a b hab
    rw [rank_calculate_confidence, rank_calculate_confidence]
    exact add_le_add (add_le_add (add_le_add (add_le_add
      (add_le_add (indicator_mono hab 1) (indicator_mono hab 3))
      (indicator_mono hab 5)) (indicator_mono hab 7))
      (indicator_mono hab 10)) (indicator_mono hab 15)
  · intro a b hab
    rw [rank_pp_calculate_confidence, rank_pp_calculate_confidence]
    exact add_le_add (add_le_add (add_le_add
      (indicator_mono hab 3) (indicator_mono hab 5))
      (indicator_mono hab 7)) (indicator_mono hab 10)

/-- C7 amended witness: the tier table and both monotonicity parts applied
at concrete edges. -/
theorem C7_confidence_tiers_monotone_witness :
    calculate_confidence 8 = confidenceTierSpec 8
    ∧ confidenceRank (calculate_confidence 4) ≤ confidenceRank (calculate_confidence 8)
    ∧ ppRank (pp_calculate_confidence 4) ≤ ppRank (pp_calculate_confidence 8) :=
  ⟨C7_confidence_tiers_monotone.1 8,
   C7_confidence_tiers_monotone.2.1 4 8 (by norm_num),
   C7_confidence_tiers_monotone.2.2 4 8 (by norm_num)⟩

/-- C8 counterexample: `MemoryStore.load_thread` on an unknown id does
change the store's state — the synthesized default is written into the
`threads` dict and is visible to a subsequent read without any explicit
save. -/
theorem C8_memstore_persists_on_load :
    (mem_load_thread [] "t1" "2025-01-01T00:00:00").2
      = [("t1", MemThread.mk "t1" "2025-01-01T00:00:00" [])]
    ∧ ((mem_load_thread [] "t1" "2025-01-01T00:00:00").2).lookup "t1"
      = some (MemThread.mk "t1" "2025-01-01T00:00:00" [])
    ∧ (mem_load_thread [] "t1" "2025-01-01T00:00:00").2
      ≠ ([] : List (String × MemThread)) := by
  refine ⟨?_, ?_, ?_⟩ <;> decide

/-- C8 amended: on a miss both stores return the freshly-initialized default
record with the given id; `SupabaseStore.load_thread` does not persist it
(it only issues a select, embedded as a pure read of the table), while
`MemoryStore.load_thread` additionally appends it to the `threads` dict —
so for the in-memory variant the synthesized thread becomes visible to
subsequent reads without an explicit save. -/
theorem C8_load_thread_miss_default (threads : List (String × MemThread))
    (tbl : List ThreadRow) (tid now : String)
    (hmem : threads.lookup tid = none)
    (hsup : tbl.filter (fun r => r.id == tid) = []) :
    (mem_load_thread threads tid now).1 = MemThread.mk tid now []
    ∧ (mem_load_thread threads tid now).2
        = threads ++ [(tid, MemThread.mk tid now [])]
    ∧ supa_load_thread (.ok tbl) tid now = defaultThreadMeta tid now := by
  refine ⟨?_, ?_, ?_⟩
  · unfold mem_load_thread
    rw [hmem]
  · unfold mem_load_thread
    rw [hmem]
  · simp only [supa_load_thread, hsup]

/-- C8 amended witness: the miss behavior at a concrete empty store. -/
theorem C8_load_thread_miss_default_witness :
    (mem_load_thread [] "t9" "2025-02-02T00:00:00").1
      = MemThread.mk "t9" "2025-02-02T00:00:00" []
    ∧ (mem_load_thread [] "t9" "2025-02-02T00:00:00").2
      = [] ++ [("t9", MemThread.mk "t9" "2025-02-02T00:00:00" [])]
    ∧ supa_load_thread (.ok []) "t9" "2025-02-02T00:00:00"
      = defaultThreadMeta "t9" "2025-02-02T00:00:00" :=
  C8_load_thread_miss_default [] [] "t9" "2025-02-02T00:00:00" rfl rfl

/-- C9 counterexample: a failing backend (e.g. a timeout) during
`load_thread_items` or `load_threads` is not surfaced — the caller receives
exactly the same empty page as for a thread/user that genuinely has no
records. -/
theorem C9_failure_indistinguishable_from_empty :
    load_thread_items_result (.error "timeout") "t1" none 20 "asc"
      = load_thread_items_result (.ok []) "t1" none 20 "asc"
    ∧ load_threads_result (.error "timeout") (some "user-1") none 20 "asc"
      = load_threads_result (.ok []) (some "user-1") none 20 "asc" := by
  refine ⟨?_, ?_⟩ <;> decide

/-- C9 amended: every storage failure in `load_thread_items` /
`load_threads` is caught, printed to the log, and converted into the empty
page `Page(data=[], has_more=False, next_cursor=None)`; no error reaches
the caller. -/
theorem C9_errors_swallowed_into_empty_page :
    ∀ (e tid : String) (uid after : Option String) (limit : ℕ) (order : String),
      load_thread_items_result (.error e) tid after limit order
        = { data := [], has_more := false, next_cursor := none }
      ∧ load_threads_result (.error e) uid after limit order
        = { data := [], has_more := false, next_cursor := none } := by
  intro e tid uid after limit order
  exact ⟨rfl, rfl⟩

/-- C10: `SupabaseStore.load_thread` is total by construction (the embedding
returns a `TMeta` for every backend outcome), and the exception branch
returns exactly the freshly-initialized default thread (given id, current
timestamp, empty metadata) that a genuine miss returns — so a caller cannot
distinguish storage unavailability from a brand-new conversation. -/
theorem C10_load_thread_error_equals_miss :
    ∀ (e tid now : String),
      supa_load_thread (.error e) tid now = defaultThreadMeta tid now
      ∧ supa_load_thread (.error e) tid now = supa_load_thread (.ok []) tid now := by
  intro e tid now
  exact ⟨rfl, rfl⟩

end PyKit
